import Mathlib

/-!
Verification of the normalization/aggregation/grouping core of the DCV
disease-dashboard repository.

The JavaScript source is shallowly embedded as follows.

* JS values that can appear in a parsed CSV record are modelled by `JSVal`
  (strings, numbers, `NaN`, `undefined`).  JS numbers are modelled by `JSNum`:
  either `NaN` or an exact rational.  All arithmetic the embedded code performs
  is exact in JS for the integer-sized data the claims are about, so rationals
  are a faithful carrier.
* A raw CSV record (a JS object) is an association list `RawRow`; key lookup
  returns the first binding, and a missing key reads as `undefined`.
* `Number(x)` is modelled by `toNumber`; its string fragment `strToNum` covers
  the decimal-natural-number grammar (`"" ↦ 0`, digit strings parse, anything
  else is `NaN`), which is the fragment exercised by the dataset and claims.
* `x || y` is `jsOr` with JS truthiness (`truthy`); `Number(x) || 0` on an
  already-numeric value is `nanTo0`.
* String conversion `String(x)` is `jsToString`; numbers print as integers
  when integral (the only case the code meets).
* `Array.prototype.sort` is mandated to be stable (ES2019); it is embedded as
  `List.insertionSort r` where `r` is the non-strict "comes no later than"
  relation derived from the JS comparator, which is the stable order.

Each page variant keeps its own namespace (`MainJS`, `MapJS`, `StateTop`,
`StateV2`, `Part0`) mirroring the duplicated source revisions.
-/

namespace DCV

/-- A JavaScript value as it appears in a parsed CSV record. -/
inductive JSVal where
  | undef : JSVal
  | str : String → JSVal
  | num : ℚ → JSVal
  | nan : JSVal
deriving DecidableEq

/-- A JavaScript number: `NaN` or an exact rational. -/
inductive JSNum where
  | nan : JSNum
  | val : ℚ → JSNum
deriving DecidableEq

/-- A raw CSV record (JS object): association list, first binding wins. -/
abbrev RawRow : Type := List (String × JSVal)

/-- Property read `obj[k]`: first binding, `undefined` when the key is absent. -/
def getField : RawRow → String → JSVal
  | [], _ => JSVal.undef
  | p :: t, k => if p.1 = k then p.2 else getField t k

/-- JS truthiness of a value. -/
def truthy : JSVal → Bool
  | JSVal.undef => false
  | JSVal.str s => if s = "" then false else true
  | JSVal.num q => if q = 0 then false else true
  | JSVal.nan => false

/-- JS `a || b`. -/
def jsOr (a b : JSVal) : JSVal := if truthy a then a else b

/-- Decimal digit accumulation for the numeric string parser. -/
def digitsToNat : List Char → ℕ → Option ℕ
  | [], acc => some acc
  | c :: cs, acc => if c.isDigit then digitsToNat cs (acc * 10 + (c.toNat - 48)) else none

/-- The fragment of JS `Number(string)` used by the dataset: empty string is 0,
decimal natural numbers parse, everything else is `NaN`. -/
def strToNum (s : String) : JSNum :=
  if s = "" then JSNum.val 0
  else
    match digitsToNat s.data 0 with
    | some n => JSNum.val n
    | none => JSNum.nan

/-- JS `Number(x)` on the values of the model. -/
def toNumber : JSVal → JSNum
  | JSVal.undef => JSNum.nan
  | JSVal.nan => JSNum.nan
  | JSVal.num q => JSNum.val q
  | JSVal.str s => strToNum s

/-- JS `x || 0` applied to a number (`NaN` and `0` are falsy). -/
def nanTo0 : JSNum → ℚ
  | JSNum.nan => 0
  | JSNum.val q => q

/-- JS `String(x)`; integral numbers print as integers (the only case met). -/
def jsToString : JSVal → String
  | JSVal.str s => s
  | JSVal.num q => if q.den = 1 then toString q.num else toString q.num ++ "/" ++ toString q.den
  | JSVal.nan => "NaN"
  | JSVal.undef => "undefined"

/-- JS strict equality `v === s` between a value and a string. -/
def jsStrictEqS (v : JSVal) (s : String) : Bool :=
  match v with
  | JSVal.str t => if t = s then true else false
  | _ => false

/-- Lexicographic comparison of UTF code-unit sequences: the order used by the
default `Array.prototype.sort()` string comparator and by `localeCompare` on
the ASCII names of this dataset. -/
def strLtB : List Char → List Char → Bool
  | [], [] => false
  | [], _ :: _ => true
  | _ :: _, [] => false
  | a :: as, b :: bs =>
    if a.toNat < b.toNat then true else if b.toNat < a.toNat then false else strLtB as bs

/-- String comparison via code units. -/
def jsStrLt (a b : String) : Bool := strLtB a.data b.data

/-- JS `Math.round`: round half toward positive infinity. -/
def jsRound (q : ℚ) : ℤ := Int.floor (q + 1/2)

/-- JS `Math.max(1, x)` on a number (`NaN` propagates). -/
def jsMax1 : JSNum → JSNum
  | JSNum.nan => JSNum.nan
  | JSNum.val q => JSNum.val (max 1 q)

/-- JS division on numbers; `NaN` propagates.  Division by zero is modelled as
`NaN` (the embedded code only divides by `Math.max(1,·)`, so the zero branch
is unreachable there). -/
def jsDiv : JSNum → JSNum → JSNum
  | JSNum.val a, JSNum.val b => if b = 0 then JSNum.nan else JSNum.val (a / b)
  | _, _ => JSNum.nan

/-- JS multiplication on numbers; `NaN` propagates. -/
def jsMul : JSNum → JSNum → JSNum
  | JSNum.val a, JSNum.val b => JSNum.val (a * b)
  | _, _ => JSNum.nan

/-- The `_pick` helper of `main.js` / `map.js`: first key whose value is
not `undefined`, else `undefined`. -/
def jsPick (r : RawRow) (keys : List String) : JSVal :=
  match keys with
  | [] => JSVal.undef
  | k :: ks => if getField r k = JSVal.undef then jsPick r ks else getField r k

/-- ASCII lower-casing of one character (models `String.prototype.toLowerCase`
on the ASCII header names of the dataset). -/
def lowerChar (c : Char) : Char := if 'A' ≤ c ∧ c ≤ 'Z' then Char.ofNat (c.toNat + 32) else c

/-- ASCII lower-casing of a string. -/
def lowerStr (s : String) : String := String.mk (s.data.map lowerChar)

/-- Whitespace test for the model of `String.prototype.trim`. -/
def isSpaceChar (c : Char) : Bool :=
  if c = ' ' ∨ c = '\t' ∨ c = '\n' ∨ c = '\r' then true else false

/-- JS `s.trim()`: strip leading and trailing whitespace. -/
def trimStr (s : String) : String :=
  String.mk (((s.data.dropWhile isSpaceChar).reverse.dropWhile isSpaceChar).reverse)

/-- A canonical row produced by the normalizers. -/
structure NRow where
  state : JSVal
  year : JSVal
  disease : JSVal
  cases : JSNum
  population : JSNum
  population_density : JSNum
deriving DecidableEq

namespace MainJS

/-- The alias list for `cases` in `main.js`. -/
def casesKeys : List String := ["cases", "Cases", "value", "count"]

/-- The alias list for `population` in `main.js`. -/
def popKeys : List String := ["population", "Population", "pop"]

/-- The alias list for `population_density` in `main.js`. -/
def densKeys : List String := ["population_density", "population density", "density",
  "pop_density"]

/-- The row normalizer of `main.js` (`normalizeRow`). -/
def normalizeRow (r : RawRow) : NRow :=
  { state := jsOr (jsPick r ["state", "State", "STATE", "location", "province"]) (JSVal.str "")
    year := jsOr (jsPick r ["year", "Year", "YEAR"]) (JSVal.str "")
    disease := jsOr (jsPick r ["disease", "Disease", "condition"]) (JSVal.str "")
    cases := toNumber (jsOr (jsPick r casesKeys) (JSVal.num 0))
    population := toNumber (jsOr (jsPick r popKeys) (JSVal.num 0))
    population_density := toNumber (jsOr (jsPick r densKeys) (JSVal.num 0)) }

end MainJS

namespace MapJS

/-- The row normalizer of the map page (`normaliseRow` in `map.js`). -/
def normaliseRow (r : RawRow) : NRow :=
  { state := jsOr (jsPick r ["state", "State", "STATE", "location", "province"]) (JSVal.str "")
    year := jsOr (jsPick r ["year", "Year", "YEAR"]) (JSVal.str "")
    disease := jsOr (jsPick r ["disease", "Disease", "condition"]) (JSVal.str "")
    cases := toNumber (jsOr (jsPick r ["cases", "Cases", "value", "count"]) (JSVal.num 0))
    population := toNumber (jsOr (jsPick r ["population", "Population", "pop"]) (JSVal.num 0))
    population_density := toNumber (jsOr
      (jsPick r ["population_density", "population density", "density", "pop_density"])
      (JSVal.num 0)) }

end MapJS

namespace StateTop

/-- Object assignment `acc[k] = v` on the association-list model: overwrite the
existing binding in place, else append. -/
def setKV (acc : RawRow) (k : String) (v : JSVal) : RawRow :=
  if acc.any (fun q => q.1 == k) then acc.map (fun q => if q.1 = k then (q.1, v) else q)
  else acc ++ [(k, v)]

/-- The lower-cased copy of the record built by the fallback pass of the
`state.js` `_pick` (a later key overwrites an earlier one). -/
def lowerRec (r : RawRow) : RawRow :=
  r.foldl (fun acc p => setKV acc (lowerStr p.1) p.2) []

/-- The exact-key pass of the `state.js` `_pick`. -/
def pickExact (r : RawRow) : List String → Option JSVal
  | [] => none
  | k :: ks => if getField r k = JSVal.undef then pickExact r ks else some (getField r k)

/-- The lower-cased fallback pass of the `state.js` `_pick`. -/
def pickLower (lr : RawRow) : List String → Option JSVal
  | [] => none
  | k :: ks =>
    if getField lr (lowerStr k) = JSVal.undef then pickLower lr ks
    else some (getField lr (lowerStr k))

/-- The alias list for `cases` in `state.js`. -/
def casesKeys : List String := ["cases", "Cases", "value", "count", "Count"]

/-- The alias list for `population` in `state.js`. -/
def popKeys : List String := ["population", "Population", "pop", "Pop"]

/-- The `_pick` helper of `state.js`: exact-key pass, then the case-insensitive
fallback pass. -/
def stPick (r : RawRow) (keys : List String) : JSVal :=
  match pickExact r keys with
  | some v => v
  | none =>
    match pickLower (lowerRec r) keys with
    | some v => v
    | none => JSVal.undef

/-- The row normalizer of the state page (top revision of `state.js`),
including its stored `per100k` field. -/
structure NRowP extends NRow where
  per100k : JSNum
deriving DecidableEq

/-- The `normaliseRow` of the top revision of `state.js`. -/
def normaliseRow (r : RawRow) : NRowP :=
  { state := jsOr
      (stPick r ["state", "State", "STATE", "location", "Location", "province", "Province"])
      (JSVal.str "")
    year := JSVal.str (trimStr (jsToString
      (jsOr (stPick r ["year", "Year", "YEAR", "yr", "YearInt"]) (JSVal.str ""))))
    disease := jsOr
      (stPick r ["disease", "Disease", "condition", "Condition", "illness"]) (JSVal.str "")
    cases := toNumber (jsOr (stPick r casesKeys) (JSVal.num 0))
    population := toNumber (jsOr (stPick r popKeys) (JSVal.num 0))
    population_density := toNumber (jsOr
      (stPick r ["population_density", "population density", "density", "pop_density", "Density"])
      (JSVal.num 0))
    per100k := jsMul
      (jsDiv
        (toNumber (jsOr (stPick r casesKeys) (JSVal.num 0)))
        (jsMax1 (toNumber (jsOr (stPick r popKeys) (JSVal.num 0)))))
      (JSNum.val 100000) }

end StateTop

namespace StateV2

/-- The `normaliseRow` of the bottom (defensive) revision of `state.js`: each
numeric field ends in an extra `|| 0`, so `NaN` degrades to 0. -/
def normaliseRow (r : RawRow) : NRow :=
  { state := jsOr
      (StateTop.stPick r ["state", "State", "STATE", "location", "Location", "province",
        "Province"]) (JSVal.str "")
    year := JSVal.str (trimStr (jsToString
      (jsOr (StateTop.stPick r ["year", "Year", "YEAR", "yr", "YearInt"]) (JSVal.str ""))))
    disease := jsOr
      (StateTop.stPick r ["disease", "Disease", "condition", "Condition", "illness"])
      (JSVal.str "")
    cases := JSNum.val (nanTo0 (toNumber
      (jsOr (StateTop.stPick r StateTop.casesKeys) (JSVal.num 0))))
    population := JSNum.val (nanTo0 (toNumber
      (jsOr (StateTop.stPick r StateTop.popKeys) (JSVal.num 0))))
    population_density := JSNum.val (nanTo0 (toNumber (jsOr
      (StateTop.stPick r ["population_density", "population density", "density", "pop_density",
        "pop density"]) (JSVal.num 0)))) }

end StateV2

/-- A per-state accumulation record, as mutated inside `aggregateByState`. -/
structure Summ where
  cases : ℚ
  population : ℚ
  density : ℚ
deriving DecidableEq

/-- A per-state summary after the final `per100k` pass. -/
structure Summ2 where
  cases : ℚ
  population : ℚ
  density : ℚ
  per100k : ℚ
deriving DecidableEq

/-- Lookup in the string-keyed map (`map[s]`), modelled as an association list
in insertion order. -/
def lookupS : List (String × Summ) → String → Option Summ
  | [], _ => none
  | p :: t, s => if p.1 = s then some p.2 else lookupS t s

/-- Replace the value bound to an existing key, keeping its position. -/
def setS : List (String × Summ) → String → Summ → List (String × Summ)
  | [], _, _ => []
  | (k, v) :: t, s, w => if k = s then (k, w) :: t else (k, v) :: setS t s w

/-- How one source variant of `aggregateByState` reads a row: whether the row
participates, the state key it is filed under, and the three numeric reads. -/
structure AggSpec (ρ : Type) where
  keep : ρ → Bool
  key : ρ → String
  casesQ : ρ → ℚ
  popQ : ρ → ℚ
  densQ : ρ → ℚ

/-- The fresh accumulator `{cases:0, population: r.population||0,
density: r.population_density||0}`. -/
def initS (A : AggSpec ρ) (r : ρ) : Summ :=
  { cases := 0, population := A.popQ r, density := A.densQ r }

/-- The three mutation lines of the `forEach` body:
`cases += …`, `population = population || …`, `density = density || …`. -/
def updS (A : AggSpec ρ) (r : ρ) (v : Summ) : Summ :=
  { cases := v.cases + A.casesQ r
    population := if v.population = 0 then A.popQ r else v.population
    density := if v.density = 0 then A.densQ r else v.density }

/-- One iteration of the `forEach` over the rows. -/
def aggStep (A : AggSpec ρ) (acc : List (String × Summ)) (r : ρ) : List (String × Summ) :=
  if A.keep r then
    match lookupS acc (A.key r) with
    | some v => setS acc (A.key r) (updS A r v)
    | none => acc ++ [(A.key r, updS A r (initS A r))]
  else acc

/-- The whole fold of `aggregateByState` before the `per100k` pass. -/
def aggFold (A : AggSpec ρ) (data : List ρ) : List (String × Summ) :=
  data.foldl (aggStep A) []

/-- The final pass of `map.js`:
`v.per100k = v.population ? (v.cases / Math.max(v.population,1))*100000 : 0`. -/
def per100kMax (v : Summ) : Summ2 :=
  { cases := v.cases, population := v.population, density := v.density
    per100k := if v.population ≠ 0 then v.cases / max v.population 1 * 100000 else 0 }

/-- The final pass of the first revision in `part_000`:
`v.per100k = v.population ? (v.cases / v.population)*100000 : 0`. -/
def per100kPlain (v : Summ) : Summ2 :=
  { cases := v.cases, population := v.population, density := v.density
    per100k := if v.population ≠ 0 then v.cases / v.population * 100000 else 0 }

/-- Lookup in the finished summary map. -/
def lookupS2 : List (String × Summ2) → String → Option Summ2
  | [], _ => none
  | p :: t, s => if p.1 = s then some p.2 else lookupS2 t s

/-- The disease filter guard `if(disease && r.disease !== disease) return`:
the row passes when the filter is unset (null or the falsy empty string) or
strictly equals the row's disease value. -/
def diseasePass (v : JSVal) (d : Option String) : Bool :=
  match d with
  | none => true
  | some dd => if dd = "" then true else jsStrictEqS v dd

/-- The year filter guard of `map.js`,
`if(year && String(r.year) !== String(year)) return`. -/
def yearPassStr (v : JSVal) (y : Option String) : Bool :=
  match y with
  | none => true
  | some yy => if yy = "" then true else jsToString v == yy

/-- The year filter guard of `part_000`, `if(year && r.year !== year) return`
(strict equality, no string conversion). -/
def yearPassStrict (v : JSVal) (y : Option String) : Bool :=
  match y with
  | none => true
  | some yy => if yy = "" then true else jsStrictEqS v yy

namespace MapJS

/-- The row reads of `aggregateByState` in `map.js`: each raw record is passed
through `normaliseRow` and the numeric fields through `Number(…)||0`. -/
def aggSpec (d y : Option String) : AggSpec RawRow :=
  { keep := fun raw =>
      let r := normaliseRow raw
      truthy r.state && diseasePass r.disease d && yearPassStr r.year y
    key := fun raw => jsToString (normaliseRow raw).state
    casesQ := fun raw => nanTo0 (normaliseRow raw).cases
    popQ := fun raw => nanTo0 (normaliseRow raw).population
    densQ := fun raw => nanTo0 (normaliseRow raw).population_density }

/-- `aggregateByState` of `map.js` (the revision at lines 188–203). -/
def aggregateByState (data : List RawRow) (d y : Option String) : List (String × Summ2) :=
  (aggFold (aggSpec d y) data).map (fun p => (p.1, per100kMax p.2))

end MapJS

namespace Part0

/-- The row reads of the first `aggregateByState` in `part_000`: raw fields
are read directly (no normalizer), numeric fields through `Number(…)||0`. -/
def aggSpec (d y : Option String) : AggSpec RawRow :=
  { keep := fun r =>
      truthy (getField r "state") && diseasePass (getField r "disease") d &&
        yearPassStrict (getField r "year") y
    key := fun r => jsToString (getField r "state")
    casesQ := fun r => nanTo0 (toNumber (getField r "cases"))
    popQ := fun r => nanTo0 (toNumber (getField r "population"))
    densQ := fun r => nanTo0 (toNumber (getField r "population_density")) }

/-- `aggregateByState` of `part_000` (lines 19–33). -/
def aggregateByState (data : List RawRow) (d y : Option String) : List (String × Summ2) :=
  (aggFold (aggSpec d y) data).map (fun p => (p.1, per100kPlain p.2))

end Part0

/-- The ascending numeric sort `vals.sort((a,b)=>a-b)` (stable). -/
def sortAscQ (vals : List ℚ) : List ℚ := List.insertionSort (fun a b : ℚ => a ≤ b) vals

/-- A row of the cases-by-state bar chart / summary table
(`Object.entries(byState).map(([state,v])=>({state, cases:v.cases||0, …}))`;
the `||0` guards are identities on the rational fields). -/
structure RowS where
  state : String
  cases : ℚ
  population : ℚ
  density : ℚ
  per100k : ℚ
deriving DecidableEq

/-- The `Object.entries(byState).map(…)` projection. -/
def toRowS (p : String × Summ2) : RowS :=
  { state := p.1, cases := p.2.cases, population := p.2.population, density := p.2.density
    per100k := p.2.per100k }

/-- The stable order on rows induced by the comparator `(a,b)=> a.k - b.k`
(ascending by a rational key): `a` comes no later than `b`. -/
def ascBy (key : RowS → ℚ) (a b : RowS) : Prop := key a ≤ key b

/-- The stable order induced by `(a,b)=> b.k - a.k` (descending). -/
def descBy (key : RowS → ℚ) (a b : RowS) : Prop := key b ≤ key a

/-- The stable order induced by `(a,b)=> a.state.localeCompare(b.state)`. -/
def alphaAsc (a b : RowS) : Prop := jsStrLt b.state a.state = false

/-- The stable order induced by `(a,b)=> b.state.localeCompare(a.state)`. -/
def alphaDesc (a b : RowS) : Prop := jsStrLt a.state b.state = false

instance (key : RowS → ℚ) : DecidableRel (ascBy key) := fun a b => by
  unfold ascBy; infer_instance

instance (key : RowS → ℚ) : DecidableRel (descBy key) := fun a b => by
  unfold descBy; infer_instance

instance : DecidableRel alphaAsc := fun a b => by
  unfold alphaAsc; infer_instance

instance : DecidableRel alphaDesc := fun a b => by
  unfold alphaDesc; infer_instance

/-- The `switch(sortMode)` of `buildCasesByStateBar`: a stable sort of the rows
under the comparator selected by the mode string (unknown modes fall back to
`cases_desc`, as in the `default` arm). -/
def sortRows (mode : String) (rows : List RowS) : List RowS :=
  if mode = "cases_asc" then List.insertionSort (ascBy (fun r => r.cases)) rows
  else if mode = "cases_desc" then List.insertionSort (descBy (fun r => r.cases)) rows
  else if mode = "alpha_asc" then List.insertionSort alphaAsc rows
  else if mode = "alpha_desc" then List.insertionSort alphaDesc rows
  else if mode = "pop_desc" then List.insertionSort (descBy (fun r => r.population)) rows
  else if mode = "density_desc" then List.insertionSort (descBy (fun r => r.density)) rows
  else if mode = "per100k_desc" then List.insertionSort (descBy (fun r => r.per100k)) rows
  else List.insertionSort (descBy (fun r => r.cases)) rows

namespace MapJS

/-- The sorted row list of `buildCasesByStateBar` in `map.js`. -/
def buildCasesByStateBarRows (byState : List (String × Summ2)) (mode : String) : List RowS :=
  sortRows mode (byState.map toRowS)

/-- The "Median" row of `renderSummaryTable` in `map.js`: rows sorted by
cases descending, element at index `Math.floor(rows.length/2)`. -/
def summaryMedianRow (byState : List (String × Summ2)) : RowS :=
  (List.insertionSort (descBy (fun r => r.cases)) (byState.map toRowS)).getD
    ((List.insertionSort (descBy (fun r => r.cases)) (byState.map toRowS)).length / 2)
    ⟨"", 0, 0, 0, 0⟩

end MapJS

namespace Part0

/-- The per-group median of the box-plot fallback in `part_000`
(`vals.sort((a,b)=>a-b)`, then the even/odd split). -/
def fallbackMedian (vals : List ℚ) : ℚ :=
  if (sortAscQ vals).length = 0 then 0
  else if (sortAscQ vals).length % 2 = 1 then
    (sortAscQ vals).getD ((sortAscQ vals).length / 2) 0
  else
    ((sortAscQ vals).getD ((sortAscQ vals).length / 2 - 1) 0 +
      (sortAscQ vals).getD ((sortAscQ vals).length / 2) 0) / 2

end Part0

/-- Modelled from the spec: "sort ascending and return the median using the
standard even/odd split (average the two middle elements for even-length
arrays)". -/
def medianSpec (vals : List ℚ) : ℚ :=
  if (sortAscQ vals).length = 0 then 0
  else if Odd (sortAscQ vals).length then (sortAscQ vals).getD ((sortAscQ vals).length / 2) 0
  else
    ((sortAscQ vals).getD ((sortAscQ vals).length / 2 - 1) 0 +
      (sortAscQ vals).getD ((sortAscQ vals).length / 2) 0) / 2

/-- Structural floor of the base-10 logarithm of a positive natural (fuel-based
model of `Math.floor(Math.log10 x)` on integers). -/
def log10floorGo : ℕ → ℕ → ℕ
  | 0, _ => 0
  | fuel + 1, n => if n < 10 then 0 else 1 + log10floorGo fuel (n / 10)

/-- Floor of `log10` on naturals (0 maps to 0; only applied to positives). -/
def log10floor (n : ℕ) : ℕ := log10floorGo n n

/-- The power-of-ten scale `p = 10^floor(log10(max(1,width)))` of
`roundBinWidth`. -/
def binScale (width : ℚ) : ℤ := (10 : ℤ) ^ log10floor (Int.toNat (Int.floor (max 1 width)))

/-- The `roundBinWidth` of `map.js`:
`p = 10^floor(log10(max(1,width)))`, `v = round(width/p)*p`, 0 falls back to
`p`.  For `width > 0` the result is a positive integer. -/
def roundBinWidth (width : ℚ) : ℤ :=
  if jsRound (width / (binScale width : ℚ)) * binScale width = 0 then binScale width
  else jsRound (width / (binScale width : ℚ)) * binScale width

/-- One histogram bin (`{start, end, count, states}`). -/
structure HBin where
  start : ℤ
  stop : ℤ
  count : ℕ
  states : List String
deriving DecidableEq

/-- Distribute one value into the first bin whose range contains it; a value
matching no bin is folded into the last bin (the clamp branch after the
`for` loop). -/
def placeVal : List HBin → String → ℚ → List HBin
  | [], _, _ => []
  | [b], s, _ => [{ b with count := b.count + 1, states := b.states ++ [s] }]
  | b :: b' :: t, s, v =>
    if (b.start : ℚ) ≤ v ∧ v ≤ (b.stop : ℚ) then
      { b with count := b.count + 1, states := b.states ++ [s] } :: b' :: t
    else b :: placeVal (b' :: t) s v

/-- The value selected for an entry by the `histNorm` control. -/
def histVal (norm : String) (v : Summ2) : ℚ := if norm = "per100k" then v.per100k else v.cases

/-- `Math.min(...arr)` over a nonempty array, as a fold. -/
def foldMin (a : ℚ) (t : List ℚ) : ℚ := t.foldl min a

/-- `Math.max(...arr)` over a nonempty array, as a fold. -/
def foldMax (a : ℚ) (t : List ℚ) : ℚ := t.foldl max a

/-- The raw width `(max - min) / 4 || 1` before rounding. -/
def histWidth0 (mn mx : ℚ) : ℚ := if (mx - mn) / 4 = 0 then 1 else (mx - mn) / 4

/-- The four bins starting at `floor(min)` with the rounded width `w`
(`end = start + width - 1`, then `start = end + 1`). -/
def histBins (mn : ℚ) (w : ℤ) : List HBin :=
  (List.range 4).map (fun i => ⟨Int.floor mn + i * w, Int.floor mn + i * w + w - 1, 0, []⟩)

/-- `buildHistogram` of `map.js`: 4 equal-width bins starting at `floor(min)`,
width `roundBinWidth((max-min)/4 || 1)`; returns `none` on an empty input
(the early `return`). -/
def buildHistogram (byState : List (String × Summ2)) (norm : String) : Option (List HBin) :=
  match byState.map (fun p => histVal norm p.2) with
  | [] => none
  | a :: t =>
    some (byState.foldl (fun bs p => placeVal bs p.1 (histVal norm p.2))
      (histBins (foldMin a t)
        (roundBinWidth (histWidth0 (foldMin a t) (foldMax a t)))))

/-- JS `Array.from(new Set(l))`: deduplicate keeping first occurrences. -/
def dedupJS [DecidableEq α] : List α → List α :=
  fun l => l.foldl (fun acc a => if a ∈ acc then acc else acc ++ [a]) []

/-- The default `Array.prototype.sort()` comparator converts elements to
strings; on the year values of this dataset that is the string order. -/
def sortsBefore (a b : JSVal) : Prop := jsStrLt (jsToString b) (jsToString a) = false

instance : DecidableRel sortsBefore := fun a b => by
  unfold sortsBefore; infer_instance

/-- `Array.from(new Set(data.filter(r=>r.disease===d).map(r=>r.year))).sort()`
of `buildMultiSeries`. -/
def yearsPerD (data : List NRow) (d : String) : List JSVal :=
  List.insertionSort sortsBefore
    (dedupJS ((data.filter (fun r => jsStrictEqS r.disease d)).map (fun r => r.year)))

/-- The common-year intersection of `buildMultiSeries`: a `reduce` over the
selected diseases with `null` start, each later step filtering the
accumulator by membership. -/
def commonYears (selected : List String) (data : List NRow) : List JSVal :=
  (selected.foldl
    (fun acc d =>
      match acc with
      | none => some (yearsPerD data d)
      | some a => some (a.filter (fun y => y ∈ yearsPerD data d)))
    none).getD []

/-- The page-global mutable state visible to `aggregateByState`: the cached
normalized dataset (`window.__PHdata`) and the last aggregation
(`byStateAgg`).  The body of `aggregateByState` reads and writes neither; it
builds a fresh local `map` from its arguments, which the call model makes
explicit. -/
structure World where
  cachedData : Option (List NRow)
  byStateAggG : List (String × Summ2)

/-- One call of `map.js` `aggregateByState` as a state transformer over the
page globals: the body only reads its arguments and builds a fresh local map,
so the world passes through unchanged. -/
def aggregateCall (w : World) (data : List RawRow) (d y : Option String) :
    List (String × Summ2) × World :=
  (MapJS.aggregateByState data d y, w)

/-- First nonzero element of a list of rationals, 0 when there is none: the
value that repeated `x = x || v` assignments leave behind. -/
def firstNonzero : List ℚ → ℚ
  | [] => 0
  | q :: t => if q = 0 then firstNonzero t else q

/-- The cumulative effect of the `forEach` body on one state's accumulator
over a list of its participating rows. -/
def applyRows (A : AggSpec ρ) (v : Summ) (rows : List ρ) : Summ :=
  rows.foldl (fun v r => updS A r v) v

theorem lookupS_setS (l : List (String × Summ)) (k s : String) (w : Summ) :
    lookupS (setS l k w) s =
      if k = s ∧ (lookupS l k).isSome then some w else lookupS l s := by
  induction l with
  | nil => simp [setS, lookupS]
  | cons p t ih =>
    by_cases hk : p.1 = k
    · subst hk
      by_cases hs : p.1 = s <;> simp [setS, lookupS, hs, ih]
    · have hcond : ∀ P : Prop, ¬ (k = p.1 ∧ P) := fun P h => hk h.1.symm
      by_cases hs : p.1 = s
      · subst hs
        simp only [setS, hk, if_neg, ite_false, lookupS, if_pos rfl]
        rw [if_neg (hcond _)]
        simp
      · simp only [setS, hk, ite_false, lookupS, hs, if_neg]
        rw [ih]

theorem lookupS_append_single (l : List (String × Summ)) (k s : String) (w : Summ) :
    lookupS (l ++ [(k, w)]) s =
      match lookupS l s with
      | some v => some v
      | none => if k = s then some w else none := by
  induction l with
  | nil => simp [lookupS]
  | cons p t ih =>
    by_cases hs : p.1 = s <;> simp [lookupS, hs, ih]

theorem lookupS_aggStep (A : AggSpec ρ) (acc : List (String × Summ)) (r : ρ) (s : String) :
    lookupS (aggStep A acc r) s =
      if A.keep r ∧ A.key r = s then
        some (updS A r ((lookupS acc s).getD (initS A r)))
      else lookupS acc s := by
  by_cases hk : A.keep r
  · simp only [aggStep, hk, if_pos, true_and]
    cases hl : lookupS acc (A.key r) with
    | some v =>
      rw [lookupS_setS]
      by_cases hs : A.key r = s
      · subst hs; simp [hl]
      · simp [hs, hl]
    | none =>
      rw [lookupS_append_single]
      by_cases hs : A.key r = s
      · subst hs; simp [hl]
      · cases hl2 : lookupS acc s <;> simp [hs, hl2]
  · simp [aggStep, hk]

theorem lookupS_foldl_aggStep (A : AggSpec ρ) (data : List ρ) (acc : List (String × Summ))
    (s : String) :
    lookupS (data.foldl (aggStep A) acc) s =
      (data.filter (fun r => A.keep r && decide (A.key r = s))).foldl
        (fun o r => some (updS A r (o.getD (initS A r)))) (lookupS acc s) := by
  induction data generalizing acc with
  | nil => simp
  | cons r t ih =>
    by_cases hk : A.keep r ∧ A.key r = s
    · have hfilter : (A.keep r && decide (A.key r = s)) = true := by
        simp only [Bool.and_eq_true, decide_eq_true_eq]
        exact hk
      rw [List.foldl_cons, ih, lookupS_aggStep, if_pos hk, List.filter_cons, hfilter]
      simp
    · have hfilter : (A.keep r && decide (A.key r = s)) = false := by
        rcases (not_and_or.mp hk) with h | h
        · simp [h]
        · simp [h]
      rw [List.foldl_cons, ih, lookupS_aggStep, if_neg hk, List.filter_cons, hfilter]
      simp

theorem updS_initS (A : AggSpec ρ) (r : ρ) :
    updS A r (initS A r) = ⟨A.casesQ r, A.popQ r, A.densQ r⟩ := by
  simp only [updS, initS]
  by_cases h : A.popQ r = 0 <;> by_cases h2 : A.densQ r = 0 <;> simp [h, h2]

theorem foldl_some_applyRows (A : AggSpec ρ) (v : Summ) (rows : List ρ) :
    rows.foldl (fun o r => some (updS A r (o.getD (initS A r)))) (some v) =
      some (applyRows A v rows) := by
  induction rows generalizing v with
  | nil => simp [applyRows]
  | cons r t ih => exact ih (updS A r v)

theorem lookupS_aggFold (A : AggSpec ρ) (data : List ρ) (s : String) :
    lookupS (aggFold A data) s =
      match data.filter (fun r => A.keep r && decide (A.key r = s)) with
      | [] => none
      | r :: rest => some (applyRows A ⟨A.casesQ r, A.popQ r, A.densQ r⟩ rest) := by
  rw [aggFold, lookupS_foldl_aggStep]
  cases h : data.filter (fun r => A.keep r && decide (A.key r = s)) with
  | nil => simp [lookupS]
  | cons r rest =>
    rw [List.foldl_cons]
    show List.foldl _ (some (updS A r ((none : Option Summ).getD (initS A r)))) rest = _
    rw [Option.getD_none, updS_initS, foldl_some_applyRows]

theorem applyRows_cases (A : AggSpec ρ) (v : Summ) (rows : List ρ) :
    (applyRows A v rows).cases = v.cases + (rows.map A.casesQ).sum := by
  induction rows generalizing v with
  | nil => simp [applyRows]
  | cons r t ih =>
    simp only [applyRows, List.foldl_cons] at *
    rw [ih]
    simp [updS, add_assoc]

theorem applyRows_population (A : AggSpec ρ) (v : Summ) (rows : List ρ) :
    (applyRows A v rows).population =
      if v.population = 0 then firstNonzero (rows.map A.popQ) else v.population := by
  induction rows generalizing v with
  | nil => by_cases h : v.population = 0 <;> simp [applyRows, firstNonzero, h]
  | cons r t ih =>
    simp only [applyRows, List.foldl_cons] at *
    rw [ih]
    by_cases hv : v.population = 0
    · by_cases hr : A.popQ r = 0 <;> simp [updS, hv, hr, firstNonzero]
    · simp [updS, hv]

theorem applyRows_density (A : AggSpec ρ) (v : Summ) (rows : List ρ) :
    (applyRows A v rows).density =
      if v.density = 0 then firstNonzero (rows.map A.densQ) else v.density := by
  induction rows generalizing v with
  | nil => by_cases h : v.density = 0 <;> simp [applyRows, firstNonzero, h]
  | cons r t ih =>
    simp only [applyRows, List.foldl_cons] at *
    rw [ih]
    by_cases hv : v.density = 0
    · by_cases hr : A.densQ r = 0 <;> simp [updS, hv, hr, firstNonzero]
    · simp [updS, hv]

theorem lookupS2_map_finish (f : Summ → Summ2) (l : List (String × Summ)) (s : String) :
    lookupS2 (l.map (fun p => (p.1, f p.2))) s = (lookupS l s).map f := by
  induction l with
  | nil => simp [lookupS, lookupS2]
  | cons p t ih =>
    by_cases hs : p.1 = s <;> simp [lookupS, lookupS2, hs, ih]

/-- The content of the aggregation fold, per state: `cases` is the sum of the
coerced cases of the participating rows, and `population`/`density` are the
first nonzero coerced values among them. -/
theorem lookupS_aggFold_char (A : AggSpec ρ) (data : List ρ) (s : String) (v : Summ)
    (h : lookupS (aggFold A data) s = some v) :
    v.cases = ((data.filter (fun r => A.keep r && decide (A.key r = s))).map A.casesQ).sum ∧
    v.population =
      firstNonzero ((data.filter (fun r => A.keep r && decide (A.key r = s))).map A.popQ) ∧
    v.density =
      firstNonzero ((data.filter (fun r => A.keep r && decide (A.key r = s))).map A.densQ) := by
  rw [lookupS_aggFold] at h
  cases hf : data.filter (fun r => A.keep r && decide (A.key r = s)) with
  | nil => rw [hf] at h; exact absurd h (by simp)
  | cons r rest =>
    rw [hf] at h
    have hv : v = applyRows A ⟨A.casesQ r, A.popQ r, A.densQ r⟩ rest := by
      injection h with h; exact h.symm
    subst hv
    refine ⟨?_, ?_, ?_⟩
    · rw [applyRows_cases]; simp
    · rw [applyRows_population]
      by_cases hr : A.popQ r = 0 <;> simp [firstNonzero, hr]
    · rw [applyRows_density]
      by_cases hr : A.densQ r = 0 <;> simp [firstNonzero, hr]

theorem strLtB_irrefl : ∀ l : List Char, strLtB l l = false := by
  intro l
  induction l with
  | nil => rfl
  | cons a t ih => simp [strLtB, ih]

theorem jsStrLt_irrefl (s : String) : jsStrLt s s = false := strLtB_irrefl s.data

theorem filter_orderedInsert_eqkey (r : α → α → Prop) [DecidableRel r]
    (key : α → β) [DecidableEq β] (k : β) (x : α) (hx : key x = k)
    (hr : ∀ h, key h = k → r x h) :
    ∀ l : List α, (List.orderedInsert r x l).filter (fun a => decide (key a = k)) =
      x :: l.filter (fun a => decide (key a = k)) := by
  intro l
  induction l with
  | nil => simp [List.orderedInsert, hx]
  | cons h t ih =>
    by_cases hrx : r x h
    · simp [List.orderedInsert, hrx, hx]
    · have hk : ¬ key h = k := fun hkk => hrx (hr h hkk)
      simp [List.orderedInsert, hrx, hk, ih]

theorem filter_orderedInsert_nekey (r : α → α → Prop) [DecidableRel r]
    (key : α → β) [DecidableEq β] (k : β) (x : α) (hx : ¬ key x = k) :
    ∀ l : List α, (List.orderedInsert r x l).filter (fun a => decide (key a = k)) =
      l.filter (fun a => decide (key a = k)) := by
  intro l
  induction l with
  | nil => simp [List.orderedInsert, hx]
  | cons h t ih =>
    by_cases hrx : r x h
    · simp [List.orderedInsert, hrx, hx]
    · by_cases hk : key h = k <;> simp [List.orderedInsert, hrx, List.filter_cons, hk, ih]

/-- Stability of the embedded JS sort: entries whose sort key equals `k` are
filtered out of the sorted list in their original relative order, provided the
comparator ties any two entries with that key. -/
theorem filter_insertionSort_key (r : α → α → Prop) [DecidableRel r]
    (key : α → β) [DecidableEq β] (k : β)
    (hr : ∀ a b, key a = k → key b = k → r a b) :
    ∀ l : List α, (List.insertionSort r l).filter (fun a => decide (key a = k)) =
      l.filter (fun a => decide (key a = k)) := by
  intro l
  induction l with
  | nil => simp
  | cons a t ih =>
    by_cases ha : key a = k
    · rw [List.insertionSort, filter_orderedInsert_eqkey r key k a ha (fun h hk => hr a h ha hk)]
      simp [List.filter_cons, ha, ih]
    · rw [List.insertionSort, filter_orderedInsert_nekey r key k a ha]
      simp [List.filter_cons, ha, ih]

theorem map_key_orderedInsert (key : RowS → ℚ) (x : RowS) (l : List RowS) :
    (List.orderedInsert (descBy key) x l).map key =
      List.orderedInsert (fun a b : ℚ => b ≤ a) (key x) (l.map key) := by
  induction l with
  | nil => simp [List.orderedInsert]
  | cons h t ih =>
    by_cases hr : key h ≤ key x
    · simp [List.orderedInsert, descBy, hr]
    · simp [List.orderedInsert, descBy, hr, ih]

theorem map_key_insertionSort (key : RowS → ℚ) (l : List RowS) :
    (List.insertionSort (descBy key) l).map key =
      List.insertionSort (fun a b : ℚ => b ≤ a) (l.map key) := by
  induction l with
  | nil => simp
  | cons a t ih =>
    simp only [List.insertionSort]
    rw [map_key_orderedInsert, ih]

instance : DecidableRel (fun a b : ℚ => b ≤ a) := fun a b =>
  inferInstanceAs (Decidable (b ≤ a))

instance : IsTotal ℚ (fun a b : ℚ => b ≤ a) := ⟨fun a b => le_total b a⟩

instance : IsTrans ℚ (fun a b : ℚ => b ≤ a) := ⟨fun _ _ _ h1 h2 => le_trans h2 h1⟩

/-- Ascending sort is the reverse of descending sort on rationals. -/
theorem insertionSort_asc_eq_reverse_desc (vs : List ℚ) :
    List.insertionSort (fun a b : ℚ => a ≤ b) vs =
      (List.insertionSort (fun a b : ℚ => b ≤ a) vs).reverse := by
  apply List.eq_of_perm_of_sorted (r := fun a b : ℚ => a ≤ b)
  · exact (List.perm_insertionSort _ vs).trans
      ((List.perm_insertionSort (fun a b : ℚ => b ≤ a) vs).symm.trans
        (List.reverse_perm _).symm)
  · exact List.sorted_insertionSort _ vs
  · have hs : List.Sorted (fun a b : ℚ => b ≤ a)
        (List.insertionSort (fun a b : ℚ => b ≤ a) vs) :=
      List.sorted_insertionSort _ vs
    rw [List.Sorted, List.pairwise_reverse]
    exact hs

theorem getD_map_key (f : α → β) (l : List α) (d : α) :
    ∀ i : ℕ, (l.map f).getD i (f d) = f (l.getD i d) := by
  induction l with
  | nil => intro i; simp [List.getD]
  | cons a t ih =>
    intro i
    cases i with
    | zero => simp [List.getD]
    | succ j => simp only [List.map_cons, List.getD_cons_succ]; exact ih j

theorem getD_reverse (l : List α) (i : ℕ) (d : α) (h : i < l.length) :
    l.reverse.getD i d = l.getD (l.length - 1 - i) d := by
  rw [List.getD_eq_getElem?_getD, List.getD_eq_getElem?_getD, List.getElem?_reverse h]

/-- The box-plot fallback median of `part_000` agrees with the spec's
"sort ascending, standard even/odd split" median. -/
theorem fallbackMedian_eq_medianSpec (vals : List ℚ) :
    Part0.fallbackMedian vals = medianSpec vals := by
  unfold Part0.fallbackMedian medianSpec
  simp only [Nat.odd_iff]

/-- For an odd number of states, the "Median" row of the summary table does
carry the spec median of the cases values (the descending sort's middle
element is the ascending sort's middle element). -/
theorem summaryMedianRow_cases_odd (byState : List (String × Summ2))
    (hne : byState ≠ []) (hodd : Odd byState.length) :
    (MapJS.summaryMedianRow byState).cases =
      medianSpec ((byState.map toRowS).map (fun r => r.cases)) := by
  obtain ⟨m, hm⟩ := hodd
  have hn0 : byState.length ≠ 0 := by
    intro h
    exact hne (List.length_eq_zero.mp h)
  have hDlen :
      (List.insertionSort (descBy (fun r : RowS => r.cases)) (byState.map toRowS)).length =
        byState.length := by
    rw [List.length_insertionSort, List.length_map]
  have hmap :
      (List.insertionSort (descBy (fun r : RowS => r.cases)) (byState.map toRowS)).map
          (fun r : RowS => r.cases) =
        List.insertionSort (fun a b : ℚ => b ≤ a)
          ((byState.map toRowS).map (fun r : RowS => r.cases)) :=
    map_key_insertionSort _ _
  have hvl : ((byState.map toRowS).map (fun r : RowS => r.cases)).length = byState.length := by
    rw [List.length_map, List.length_map]
  have hsl :
      (List.insertionSort (fun a b : ℚ => a ≤ b)
          ((byState.map toRowS).map (fun r : RowS => r.cases))).length = byState.length := by
    rw [List.length_insertionSort, hvl]
  have hlhs :
      (MapJS.summaryMedianRow byState).cases =
        ((List.insertionSort (descBy (fun r : RowS => r.cases)) (byState.map toRowS)).map
          (fun r : RowS => r.cases)).getD (byState.length / 2) 0 := by
    unfold MapJS.summaryMedianRow
    rw [hDlen]
    exact (getD_map_key (fun r : RowS => r.cases) _ ⟨"", 0, 0, 0, 0⟩ (byState.length / 2)).symm
  have hga : sortAscQ ((byState.map toRowS).map (fun r : RowS => r.cases)) =
      (List.insertionSort (fun a b : ℚ => b ≤ a)
        ((byState.map toRowS).map (fun r : RowS => r.cases))).reverse := by
    rw [sortAscQ, insertionSort_asc_eq_reverse_desc]
  have hal : (sortAscQ ((byState.map toRowS).map (fun r : RowS => r.cases))).length =
      byState.length := by
    rw [sortAscQ, List.length_insertionSort, hvl]
  have hglen : (List.insertionSort (fun a b : ℚ => b ≤ a)
      ((byState.map toRowS).map (fun r : RowS => r.cases))).length = byState.length := by
    rw [List.length_insertionSort, hvl]
  rw [hlhs, hmap]
  unfold medianSpec
  rw [if_neg (by rw [hal]; exact hn0)]
  rw [if_pos (by rw [hal]; exact ⟨m, hm⟩)]
  rw [hal, hga]
  rw [getD_reverse _ _ _ (by rw [hglen]; omega)]
  rw [hglen]
  congr 1
  omega

theorem mem_dedupJS [DecidableEq α] (a : α) (l : List α) : a ∈ dedupJS l ↔ a ∈ l := by
  have key : ∀ (l : List α) (acc : List α),
      a ∈ l.foldl (fun acc x => if x ∈ acc then acc else acc ++ [x]) acc ↔
        a ∈ acc ∨ a ∈ l := by
    intro l
    induction l with
    | nil => intro acc; simp
    | cons x t ih =>
      intro acc
      by_cases hx : x ∈ acc
      · rw [List.foldl_cons, if_pos hx, ih]
        constructor
        · rintro (h | h)
          · exact Or.inl h
          · exact Or.inr (List.mem_cons_of_mem _ h)
        · rintro (h | h)
          · exact Or.inl h
          · rcases List.mem_cons.mp h with h | h
            · exact Or.inl (h ▸ hx)
            · exact Or.inr h
      · rw [List.foldl_cons, if_neg hx, ih]
        constructor
        · rintro (h | h)
          · rcases List.mem_append.mp h with h | h
            · exact Or.inl h
            · exact Or.inr (List.mem_cons.mpr (Or.inl (List.mem_singleton.mp h)))
          · exact Or.inr (List.mem_cons_of_mem _ h)
        · rintro (h | h)
          · exact Or.inl (List.mem_append.mpr (Or.inl h))
          · rcases List.mem_cons.mp h with h | h
            · exact Or.inl (List.mem_append.mpr (Or.inr (by simp [h])))
            · exact Or.inr h
  rw [dedupJS, key]
  simp

theorem mem_yearsPerD (y : JSVal) (data : List NRow) (d : String) :
    y ∈ yearsPerD data d ↔
      y ∈ (data.filter (fun r => jsStrictEqS r.disease d)).map (fun r => r.year) := by
  rw [yearsPerD, List.mem_insertionSort, mem_dedupJS]

theorem commonYears_cons (d : String) (rest : List String) (data : List NRow) :
    commonYears (d :: rest) data =
      rest.foldl (fun a dd => a.filter (fun y => y ∈ yearsPerD data dd)) (yearsPerD data d) := by
  rw [commonYears]
  have key : ∀ (rest : List String) (a : List JSVal),
      rest.foldl
        (fun acc dd =>
          match acc with
          | none => some (yearsPerD data dd)
          | some a => some (a.filter (fun y => y ∈ yearsPerD data dd)))
        (some a) =
      some (rest.foldl (fun a dd => a.filter (fun y => y ∈ yearsPerD data dd)) a) := by
    intro rest
    induction rest with
    | nil => intro a; rfl
    | cons dd t ih => intro a; exact ih _
  rw [List.foldl_cons]
  rw [key rest (yearsPerD data d)]
  rfl

theorem mem_foldl_filter (data : List NRow) (y : JSVal) :
    ∀ (rest : List String) (a : List JSVal),
      y ∈ rest.foldl (fun a dd => a.filter (fun y => y ∈ yearsPerD data dd)) a ↔
        y ∈ a ∧ ∀ dd ∈ rest, y ∈ yearsPerD data dd := by
  intro rest
  induction rest with
  | nil => intro a; simp
  | cons dd t ih =>
    intro a
    rw [List.foldl_cons, ih]
    simp only [List.mem_filter, decide_eq_true_eq, List.mem_cons]
    constructor
    · rintro ⟨⟨h1, h2⟩, h3⟩
      refine ⟨h1, ?_⟩
      intro x hx
      rcases hx with hx | hx
      · subst hx; exact h2
      · exact h3 x hx
    · rintro ⟨h1, h2⟩
      exact ⟨⟨h1, h2 dd (Or.inl rfl)⟩, fun x hx => h2 x (Or.inr hx)⟩

theorem sortRows_eq_cases_asc (rows : List RowS) :
    sortRows "cases_asc" rows = List.insertionSort (ascBy (fun r => r.cases)) rows := by
  simp [sortRows]

theorem sortRows_eq_cases_desc (rows : List RowS) :
    sortRows "cases_desc" rows = List.insertionSort (descBy (fun r => r.cases)) rows := by
  simp [sortRows]

theorem sortRows_eq_alpha_asc (rows : List RowS) :
    sortRows "alpha_asc" rows = List.insertionSort alphaAsc rows := by
  simp [sortRows]

theorem sortRows_eq_alpha_desc (rows : List RowS) :
    sortRows "alpha_desc" rows = List.insertionSort alphaDesc rows := by
  simp [sortRows]

theorem sortRows_eq_pop_desc (rows : List RowS) :
    sortRows "pop_desc" rows = List.insertionSort (descBy (fun r => r.population)) rows := by
  simp [sortRows]

theorem sortRows_eq_density_desc (rows : List RowS) :
    sortRows "density_desc" rows = List.insertionSort (descBy (fun r => r.density)) rows := by
  simp [sortRows]

theorem sortRows_eq_per100k_desc (rows : List RowS) :
    sortRows "per100k_desc" rows = List.insertionSort (descBy (fun r => r.per100k)) rows := by
  simp [sortRows]

/-- C9: under every supported sort mode of `buildCasesByStateBar`, entries
whose sort key is identical keep their original relative order (expressed as:
filtering the sorted rows down to one key value returns those rows in their
original order). -/
theorem sort_modes_stable (byState : List (String × Summ2)) :
    (∀ k : ℚ,
      ((MapJS.buildCasesByStateBarRows byState "cases_desc").filter
          (fun r => decide (r.cases = k)) =
        (byState.map toRowS).filter (fun r => decide (r.cases = k))) ∧
      ((MapJS.buildCasesByStateBarRows byState "cases_asc").filter
          (fun r => decide (r.cases = k)) =
        (byState.map toRowS).filter (fun r => decide (r.cases = k))) ∧
      ((MapJS.buildCasesByStateBarRows byState "pop_desc").filter
          (fun r => decide (r.population = k)) =
        (byState.map toRowS).filter (fun r => decide (r.population = k))) ∧
      ((MapJS.buildCasesByStateBarRows byState "density_desc").filter
          (fun r => decide (r.density = k)) =
        (byState.map toRowS).filter (fun r => decide (r.density = k))) ∧
      ((MapJS.buildCasesByStateBarRows byState "per100k_desc").filter
          (fun r => decide (r.per100k = k)) =
        (byState.map toRowS).filter (fun r => decide (r.per100k = k)))) ∧
    (∀ nm : String,
      ((MapJS.buildCasesByStateBarRows byState "alpha_asc").filter
          (fun r => decide (r.state = nm)) =
        (byState.map toRowS).filter (fun r => decide (r.state = nm))) ∧
      ((MapJS.buildCasesByStateBarRows byState "alpha_desc").filter
          (fun r => decide (r.state = nm)) =
        (byState.map toRowS).filter (fun r => decide (r.state = nm)))) := by
  constructor
  · intro k
    refine ⟨?_, ?_, ?_, ?_, ?_⟩
    · rw [MapJS.buildCasesByStateBarRows, sortRows_eq_cases_desc]
      exact filter_insertionSort_key _ (fun r : RowS => r.cases) k
        (fun a b ha hb => by
          show (fun r : RowS => r.cases) b ≤ (fun r : RowS => r.cases) a
          rw [ha, hb]) _
    · rw [MapJS.buildCasesByStateBarRows, sortRows_eq_cases_asc]
      exact filter_insertionSort_key _ (fun r : RowS => r.cases) k
        (fun a b ha hb => by
          show (fun r : RowS => r.cases) a ≤ (fun r : RowS => r.cases) b
          rw [ha, hb]) _
    · rw [MapJS.buildCasesByStateBarRows, sortRows_eq_pop_desc]
      exact filter_insertionSort_key _ (fun r : RowS => r.population) k
        (fun a b ha hb => by
          show (fun r : RowS => r.population) b ≤ (fun r : RowS => r.population) a
          rw [ha, hb]) _
    · rw [MapJS.buildCasesByStateBarRows, sortRows_eq_density_desc]
      exact filter_insertionSort_key _ (fun r : RowS => r.density) k
        (fun a b ha hb => by
          show (fun r : RowS => r.density) b ≤ (fun r : RowS => r.density) a
          rw [ha, hb]) _
    · rw [MapJS.buildCasesByStateBarRows, sortRows_eq_per100k_desc]
      exact filter_insertionSort_key _ (fun r : RowS => r.per100k) k
        (fun a b ha hb => by
          show (fun r : RowS => r.per100k) b ≤ (fun r : RowS => r.per100k) a
          rw [ha, hb]) _
  · intro nm
    constructor
    · rw [MapJS.buildCasesByStateBarRows, sortRows_eq_alpha_asc]
      exact filter_insertionSort_key _ (fun r : RowS => r.state) nm
        (fun a b ha hb => by
          show jsStrLt ((fun r : RowS => r.state) b) ((fun r : RowS => r.state) a) = false
          rw [ha, hb]
          exact jsStrLt_irrefl nm) _
    · rw [MapJS.buildCasesByStateBarRows, sortRows_eq_alpha_desc]
      exact filter_insertionSort_key _ (fun r : RowS => r.state) nm
        (fun a b ha hb => by
          show jsStrLt ((fun r : RowS => r.state) a) ((fun r : RowS => r.state) b) = false
          rw [ha, hb]
          exact jsStrLt_irrefl nm) _

/-- C10: `aggregateByState` is a pure function of its arguments: a call leaves
the page globals unchanged, a second call with the same arguments returns the
same map, and the result does not depend on the world the call starts from. -/
theorem aggregate_call_idempotent (w w' : World) (data : List RawRow) (d y : Option String) :
    (aggregateCall (aggregateCall w data d y).2 data d y).1 = (aggregateCall w data d y).1 ∧
    (aggregateCall w data d y).2 = w ∧
    (aggregateCall w data d y).1 = (aggregateCall w' data d y).1 :=
  ⟨rfl, rfl, rfl⟩

/-- C6: for a nonempty selection of diseases, the common-year reduction of
`buildMultiSeries` returns exactly the years that occur in every selected
disease's observed-year list. -/
theorem common_years_intersection (selected : List String) (data : List NRow) (y : JSVal)
    (hne : selected ≠ []) :
    y ∈ commonYears selected data ↔ ∀ d ∈ selected, y ∈ yearsPerD data d := by
  cases selected with
  | nil => exact absurd rfl hne
  | cons d rest =>
    rw [commonYears_cons, mem_foldl_filter]
    constructor
    · rintro ⟨h1, h2⟩ dd hdd
      rcases List.mem_cons.mp hdd with h | h
      · subst h; exact h1
      · exact h2 _ h
    · intro h
      exact ⟨h d (List.mem_cons_self _ _), fun dd hdd => h dd (List.mem_cons_of_mem _ hdd)⟩

/-- A row of normalized shape used by the concrete multi-series scenario. -/
def mkNR (st yr dis : String) : NRow :=
  ⟨JSVal.str st, JSVal.str yr, JSVal.str dis, JSNum.val 0, JSNum.val 0, JSNum.val 0⟩

/-- Disease A observed in 2018–2020 and disease B in 2019–2021. -/
def exC6Data : List NRow :=
  [mkNR "CA" "2018" "A", mkNR "CA" "2019" "A", mkNR "CA" "2020" "A",
   mkNR "CA" "2019" "B", mkNR "CA" "2020" "B", mkNR "CA" "2021" "B"]

theorem exC6_yearsA : yearsPerD exC6Data "A" =
    [JSVal.str "2018", JSVal.str "2019", JSVal.str "2020"] := by
  simp [yearsPerD, exC6Data, mkNR, jsStrictEqS, dedupJS, List.insertionSort,
    List.orderedInsert, sortsBefore, jsStrLt, strLtB, jsToString]

theorem exC6_yearsB : yearsPerD exC6Data "B" =
    [JSVal.str "2019", JSVal.str "2020", JSVal.str "2021"] := by
  simp [yearsPerD, exC6Data, mkNR, jsStrictEqS, dedupJS, List.insertionSort,
    List.orderedInsert, sortsBefore, jsStrLt, strLtB, jsToString]

/-- C6 witness: the theorem applied to the concrete A/B scenario, together
with the computed intersection [2019, 2020]. -/
theorem common_years_intersection_witness :
    (JSVal.str "2019" ∈ commonYears ["A", "B"] exC6Data ↔
      ∀ d ∈ (["A", "B"] : List String), JSVal.str "2019" ∈ yearsPerD exC6Data d) ∧
    commonYears ["A", "B"] exC6Data = [JSVal.str "2019", JSVal.str "2020"] := by
  constructor
  · exact common_years_intersection ["A", "B"] exC6Data (JSVal.str "2019") (by simp)
  · rw [commonYears_cons, List.foldl_cons, List.foldl_nil, exC6_yearsA, exC6_yearsB]
    simp

theorem lookupS2_aggFinish (A : AggSpec ρ) (f : Summ → Summ2) (data : List ρ) (s : String)
    (v : Summ2) (h : lookupS2 ((aggFold A data).map (fun p => (p.1, f p.2))) s = some v) :
    ∃ w, lookupS (aggFold A data) s = some w ∧ v = f w := by
  rw [lookupS2_map_finish] at h
  cases hw : lookupS (aggFold A data) s with
  | none => rw [hw] at h; cases h
  | some w =>
    rw [hw] at h
    exact ⟨w, rfl, (Option.some.inj h).symm⟩

/-- C4 (amended): in both `aggregateByState` variants, a state's `population`
and `density` are the FIRST NONZERO coerced values among its participating
rows (rows whose value coerces to 0 leave the slot open for a later row; a
nonzero value, once stored, is never overwritten). -/
theorem population_density_first_nonzero :
    (∀ (data : List RawRow) (d y : Option String) (s : String) (v : Summ2),
      lookupS2 (MapJS.aggregateByState data d y) s = some v →
        v.population = firstNonzero ((data.filter (fun r =>
            (MapJS.aggSpec d y).keep r && decide ((MapJS.aggSpec d y).key r = s))).map
          (MapJS.aggSpec d y).popQ) ∧
        v.density = firstNonzero ((data.filter (fun r =>
            (MapJS.aggSpec d y).keep r && decide ((MapJS.aggSpec d y).key r = s))).map
          (MapJS.aggSpec d y).densQ)) ∧
    (∀ (data : List RawRow) (d y : Option String) (s : String) (v : Summ2),
      lookupS2 (Part0.aggregateByState data d y) s = some v →
        v.population = firstNonzero ((data.filter (fun r =>
            (Part0.aggSpec d y).keep r && decide ((Part0.aggSpec d y).key r = s))).map
          (Part0.aggSpec d y).popQ) ∧
        v.density = firstNonzero ((data.filter (fun r =>
            (Part0.aggSpec d y).keep r && decide ((Part0.aggSpec d y).key r = s))).map
          (Part0.aggSpec d y).densQ)) := by
  constructor
  · intro data d y s v h
    rw [MapJS.aggregateByState] at h
    obtain ⟨w, hw, hv⟩ := lookupS2_aggFinish _ _ _ _ _ h
    have char := lookupS_aggFold_char _ _ _ _ hw
    subst hv
    exact ⟨char.2.1, char.2.2⟩
  · intro data d y s v h
    rw [Part0.aggregateByState] at h
    obtain ⟨w, hw, hv⟩ := lookupS2_aggFinish _ _ _ _ _ h
    have char := lookupS_aggFold_char _ _ _ _ hw
    subst hv
    exact ⟨char.2.1, char.2.2⟩

/-- C8 (amended): if every row's coerced cases value is nonnegative, every
state entry of the aggregation has nonnegative cases. -/
theorem aggregate_cases_nonneg (data : List RawRow) (d y : Option String)
    (hpos : ∀ r ∈ data, 0 ≤ (MapJS.aggSpec d y).casesQ r) (s : String) (v : Summ2)
    (h : lookupS2 (MapJS.aggregateByState data d y) s = some v) : 0 ≤ v.cases := by
  rw [MapJS.aggregateByState] at h
  obtain ⟨w, hw, hv⟩ := lookupS2_aggFinish _ _ _ _ _ h
  have char := lookupS_aggFold_char _ _ _ _ hw
  subst hv
  show 0 ≤ w.cases
  rw [char.1]
  apply List.sum_nonneg
  intro x hx
  obtain ⟨r, hr, hxr⟩ := List.mem_map.mp hx
  exact hxr ▸ hpos r (List.mem_of_mem_filter hr)

/-- Raw row 1 of the end-to-end scenario of C2. -/
def exC2Row1 : RawRow :=
  [("state", JSVal.str "CA"), ("year", JSVal.str "2020"), ("disease", JSVal.str "Flu"),
   ("cases", JSVal.num 100), ("population", JSVal.num 1000)]

/-- Raw row 2 of the end-to-end scenario of C2. -/
def exC2Row2 : RawRow :=
  [("state", JSVal.str "CA"), ("year", JSVal.str "2021"), ("disease", JSVal.str "Flu"),
   ("cases", JSVal.num 200), ("population", JSVal.num 1000)]

theorem exC2_n1 : MapJS.normaliseRow exC2Row1 =
    ⟨JSVal.str "CA", JSVal.str "2020", JSVal.str "Flu",
      JSNum.val 100, JSNum.val 1000, JSNum.val 0⟩ := by
  simp [MapJS.normaliseRow, exC2Row1, jsPick, getField, jsOr, truthy, toNumber,
    MainJS.casesKeys, MainJS.popKeys, MainJS.densKeys]

theorem exC2_n2 : MapJS.normaliseRow exC2Row2 =
    ⟨JSVal.str "CA", JSVal.str "2021", JSVal.str "Flu",
      JSNum.val 200, JSNum.val 1000, JSNum.val 0⟩ := by
  simp [MapJS.normaliseRow, exC2Row2, jsPick, getField, jsOr, truthy, toNumber,
    MainJS.casesKeys, MainJS.popKeys, MainJS.densKeys]

theorem exC2_eval : MapJS.aggregateByState [exC2Row1, exC2Row2] (some "Flu") none =
    [("CA", ⟨300, 1000, 0, 30000⟩)] := by
  simp [MapJS.aggregateByState, MapJS.aggSpec, aggFold, aggStep, exC2_n1, exC2_n2, lookupS,
    setS, updS, initS, per100kMax, truthy, nanTo0, jsToString, jsStrictEqS, diseasePass,
    yearPassStr]
  norm_num [max_def]

/-- C2: aggregating the two CA/Flu rows with the disease filter "Flu" and no
year filter yields exactly one entry, CA with cases 300, population 1000 and
per100k 30000 (recomputed after the fold). -/
theorem aggregate_two_row_scenario :
    MapJS.aggregateByState [exC2Row1, exC2Row2] (some "Flu") none =
      [("CA", ⟨300, 1000, 0, 30000⟩)] :=
  exC2_eval

/-- First raw row of the C4 counterexample: its population coerces to 0. -/
def exC4Row1 : RawRow := [("state", JSVal.str "CA"), ("population", JSVal.num 0)]

/-- Second raw row of the C4 counterexample: population 500. -/
def exC4Row2 : RawRow := [("state", JSVal.str "CA"), ("population", JSVal.num 500)]

theorem exC4_n1 : MapJS.normaliseRow exC4Row1 =
    ⟨JSVal.str "CA", JSVal.str "", JSVal.str "", JSNum.val 0, JSNum.val 0, JSNum.val 0⟩ := by
  simp [MapJS.normaliseRow, exC4Row1, jsPick, getField, jsOr, truthy, toNumber,
    MainJS.casesKeys, MainJS.popKeys, MainJS.densKeys]

theorem exC4_n2 : MapJS.normaliseRow exC4Row2 =
    ⟨JSVal.str "CA", JSVal.str "", JSVal.str "", JSNum.val 0, JSNum.val 500, JSNum.val 0⟩ := by
  simp [MapJS.normaliseRow, exC4Row2, jsPick, getField, jsOr, truthy, toNumber,
    MainJS.casesKeys, MainJS.popKeys, MainJS.densKeys]

/-- C4 counterexample: the first participating CA row carries population 0,
yet the aggregated CA entry ends up with population 500, taken from the
second row — so population is not "set exactly once from the first
participating row". -/
theorem population_overwrite_counterexample :
    lookupS2 (MapJS.aggregateByState [exC4Row1, exC4Row2] none none) "CA" =
      some ⟨0, 500, 0, 0⟩ ∧
    nanTo0 (MapJS.normaliseRow exC4Row1).population = 0 ∧ ((500 : ℚ) ≠ 0) := by
  refine ⟨?_, ?_, by norm_num⟩
  · have heval : MapJS.aggregateByState [exC4Row1, exC4Row2] none none =
        [("CA", ⟨0, 500, 0, 0⟩)] := by
      simp [MapJS.aggregateByState, MapJS.aggSpec, aggFold, aggStep, exC4_n1, exC4_n2, lookupS,
        setS, updS, initS, per100kMax, truthy, nanTo0, jsToString, jsStrictEqS, diseasePass,
        yearPassStr]
    rw [heval]
    simp [lookupS2]
  · rw [exC4_n1]
    rfl

/-- The single-row dataset used by the C4 witness. -/
def exC4W : List RawRow := [[("state", JSVal.str "CA"), ("population", JSVal.num 7)]]

theorem exC4W_eval : MapJS.aggregateByState exC4W none none = [("CA", ⟨0, 7, 0, 0⟩)] := by
  have hn : MapJS.normaliseRow [("state", JSVal.str "CA"), ("population", JSVal.num 7)] =
      ⟨JSVal.str "CA", JSVal.str "", JSVal.str "", JSNum.val 0, JSNum.val 7, JSNum.val 0⟩ := by
    simp [MapJS.normaliseRow, jsPick, getField, jsOr, truthy, toNumber,
      MainJS.casesKeys, MainJS.popKeys, MainJS.densKeys]
  simp [MapJS.aggregateByState, MapJS.aggSpec, aggFold, aggStep, exC4W, hn, lookupS,
    setS, updS, initS, per100kMax, truthy, nanTo0, jsToString, jsStrictEqS, diseasePass,
    yearPassStr]

/-- C4 witness: the first-nonzero characterisation applied to a concrete
one-row dataset. -/
theorem population_density_first_nonzero_witness :
    (⟨0, 7, 0, 0⟩ : Summ2).population = firstNonzero ((exC4W.filter (fun r =>
        (MapJS.aggSpec none none).keep r &&
          decide ((MapJS.aggSpec none none).key r = "CA"))).map
      (MapJS.aggSpec none none).popQ) ∧
    (⟨0, 7, 0, 0⟩ : Summ2).density = firstNonzero ((exC4W.filter (fun r =>
        (MapJS.aggSpec none none).keep r &&
          decide ((MapJS.aggSpec none none).key r = "CA"))).map
      (MapJS.aggSpec none none).densQ) :=
  population_density_first_nonzero.1 exC4W none none "CA" ⟨0, 7, 0, 0⟩
    (by rw [exC4W_eval]; simp [lookupS2])

/-- The single raw row of the C8 counterexample: a negative cases value. -/
def exC8Row : RawRow := [("state", JSVal.str "CA"), ("cases", JSVal.num (-5))]

theorem exC8_n : MapJS.normaliseRow exC8Row =
    ⟨JSVal.str "CA", JSVal.str "", JSVal.str "", JSNum.val (-5), JSNum.val 0, JSNum.val 0⟩ := by
  simp [MapJS.normaliseRow, exC8Row, jsPick, getField, jsOr, truthy, toNumber,
    MainJS.casesKeys, MainJS.popKeys, MainJS.densKeys]

/-- C8 counterexample: a dataset whose only row carries cases −5 produces a
CA summary with cases −5 < 0, so the aggregator's output is not always
nonnegative for arbitrary input. -/
theorem aggregate_negative_cases_counterexample :
    lookupS2 (MapJS.aggregateByState [exC8Row] none none) "CA" = some ⟨-5, 0, 0, 0⟩ ∧
    ¬ ((0 : ℚ) ≤ (-5 : ℚ)) := by
  refine ⟨?_, by norm_num⟩
  have heval : MapJS.aggregateByState [exC8Row] none none = [("CA", ⟨-5, 0, 0, 0⟩)] := by
    simp [MapJS.aggregateByState, MapJS.aggSpec, aggFold, aggStep, exC8_n, lookupS,
      setS, updS, initS, per100kMax, truthy, nanTo0, jsToString, jsStrictEqS, diseasePass,
      yearPassStr]
  rw [heval]
  simp [lookupS2]

/-- C8 witness: the nonnegativity theorem applied to the two-row CA/Flu
scenario (whose coerced cases are 100 and 200). -/
theorem aggregate_cases_nonneg_witness :
    (0 : ℚ) ≤ ((⟨300, 1000, 0, 30000⟩ : Summ2)).cases :=
  aggregate_cases_nonneg [exC2Row1, exC2Row2] (some "Flu") none
    (by
      intro r hr
      rcases List.mem_cons.mp hr with h | h
      · subst h
        show (0 : ℚ) ≤ nanTo0 (MapJS.normaliseRow exC2Row1).cases
        rw [exC2_n1]
        norm_num [nanTo0]
      · rcases List.mem_cons.mp h with h | h
        · subst h
          show (0 : ℚ) ≤ nanTo0 (MapJS.normaliseRow exC2Row2).cases
          rw [exC2_n2]
          norm_num [nanTo0]
        · cases h)
    "CA" ⟨300, 1000, 0, 30000⟩
    (by rw [exC2_eval]; simp [lookupS2])

/-- The raw record of the C1 counterexample: cases 5, population absent. -/
def exC1Row : RawRow := [("state", JSVal.str "CA"), ("cases", JSVal.num 5)]

/-- C1 counterexample: with a missing population (coerced to 0, hence not
greater than 0) the claim demands `per100k = 0`, but the normalizer divides
by `Math.max(1, population)` and returns cases·100000 = 500000. -/
theorem per100k_missing_population_counterexample :
    (StateTop.normaliseRow exC1Row).per100k = JSNum.val 500000 ∧
    JSNum.val (500000 : ℚ) ≠ JSNum.val 0 := by
  constructor
  · show jsMul (jsDiv (toNumber (jsOr (StateTop.stPick exC1Row StateTop.casesKeys)
        (JSVal.num 0))) (jsMax1 (toNumber (jsOr (StateTop.stPick exC1Row StateTop.popKeys)
        (JSVal.num 0))))) (JSNum.val 100000) = JSNum.val 500000
    have hc : StateTop.stPick exC1Row StateTop.casesKeys = JSVal.num 5 := by
      simp [StateTop.stPick, StateTop.pickExact, StateTop.casesKeys, exC1Row, getField]
    have hp : StateTop.stPick exC1Row StateTop.popKeys = JSVal.undef := by
      simp [StateTop.stPick, StateTop.pickExact, StateTop.pickLower, StateTop.lowerRec,
        StateTop.setKV, lowerStr, lowerChar, StateTop.popKeys, exC1Row, getField]
    rw [hc, hp]
    norm_num [jsOr, truthy, toNumber, jsMax1, jsDiv, jsMul, max_def]
  · simp

/-- C1 (amended): for every raw record whose coerced cases value is the
rational `c` and whose coerced population is a rational `p ≥ 1`, the stored
`per100k` equals `(c / p) * 100000` (the `Math.max(1, …)` guard is inert
exactly when the population is at least 1; for population 0 the counterexample
shows the value is `cases * 100000`, not 0). -/
theorem per100k_of_population_ge_one (r : RawRow) (c p : ℚ)
    (hc : toNumber (jsOr (StateTop.stPick r StateTop.casesKeys) (JSVal.num 0)) = JSNum.val c)
    (hp : toNumber (jsOr (StateTop.stPick r StateTop.popKeys) (JSVal.num 0)) = JSNum.val p)
    (h1 : 1 ≤ p) :
    (StateTop.normaliseRow r).per100k = JSNum.val (c / p * 100000) := by
  show jsMul (jsDiv (toNumber (jsOr (StateTop.stPick r StateTop.casesKeys) (JSVal.num 0)))
      (jsMax1 (toNumber (jsOr (StateTop.stPick r StateTop.popKeys) (JSVal.num 0)))))
    (JSNum.val 100000) = JSNum.val (c / p * 100000)
  rw [hc, hp]
  have hmax : max (1 : ℚ) p = p := max_eq_right h1
  have hne : p ≠ 0 := (lt_of_lt_of_le zero_lt_one h1).ne'
  simp [jsMax1, hmax, jsDiv, hne, jsMul]

/-- The raw record of the C1 witness: cases 100, population 1000. -/
def exC1WRow : RawRow :=
  [("state", JSVal.str "CA"), ("cases", JSVal.num 100), ("population", JSVal.num 1000)]

/-- C1 witness: the amended per100k law at a concrete record. -/
theorem per100k_of_population_ge_one_witness :
    (1 : ℚ) ≤ 1000 ∧
    (StateTop.normaliseRow exC1WRow).per100k = JSNum.val (100 / 1000 * 100000) :=
  ⟨by norm_num,
    per100k_of_population_ge_one exC1WRow 100 1000
      (by simp [StateTop.stPick, StateTop.pickExact, StateTop.casesKeys, exC1WRow, getField,
        jsOr, truthy, toNumber])
      (by simp [StateTop.stPick, StateTop.pickExact, StateTop.popKeys, exC1WRow, getField,
        jsOr, truthy, toNumber])
      (by norm_num)⟩

/-- The raw record of the C3 counterexample: a non-numeric cases string. -/
def exC3Row : RawRow := [("cases", JSVal.str "abc")]

/-- C3 counterexample: `main.js` `normalizeRow` coerces the non-numeric string
"abc" to NaN, not 0 (`Number("abc" || 0)` is NaN; there is no trailing
`|| 0`). -/
theorem coercion_nonnumeric_counterexample :
    (MainJS.normalizeRow exC3Row).cases = JSNum.nan ∧ JSNum.nan ≠ JSNum.val 0 := by
  constructor
  · simp [MainJS.normalizeRow, exC3Row, jsPick, getField, jsOr, truthy, toNumber, strToNum,
      digitsToNat, MainJS.casesKeys]
  · simp

/-- C3 (amended): the numeric coercions never raise (they are total).  A
missing source value yields 0 in every variant, and the defensive state-page
variant also maps non-numeric strings to 0; but the `main.js`/`map.js`
variant maps a non-empty non-numeric string to NaN rather than 0. -/
theorem numeric_coercion_behaviour (r : RawRow) (s : String) :
    ((jsPick r MainJS.casesKeys = JSVal.undef →
        (MainJS.normalizeRow r).cases = JSNum.val 0) ∧
      (jsPick r MainJS.popKeys = JSVal.undef →
        (MainJS.normalizeRow r).population = JSNum.val 0) ∧
      (jsPick r MainJS.densKeys = JSVal.undef →
        (MainJS.normalizeRow r).population_density = JSNum.val 0)) ∧
    ((∃ q, (StateV2.normaliseRow r).cases = JSNum.val q) ∧
      (∃ q, (StateV2.normaliseRow r).population = JSNum.val q) ∧
      (∃ q, (StateV2.normaliseRow r).population_density = JSNum.val q)) ∧
    (StateTop.stPick r StateTop.casesKeys = JSVal.str s → strToNum s = JSNum.nan →
      (StateV2.normaliseRow r).cases = JSNum.val 0) ∧
    (jsPick r MainJS.casesKeys = JSVal.str s → s ≠ "" → strToNum s = JSNum.nan →
      (MainJS.normalizeRow r).cases = JSNum.nan) := by
  refine ⟨⟨?_, ?_, ?_⟩, ⟨⟨_, rfl⟩, ⟨_, rfl⟩, ⟨_, rfl⟩⟩, ?_, ?_⟩
  · intro h
    show toNumber (jsOr (jsPick r MainJS.casesKeys) (JSVal.num 0)) = JSNum.val 0
    rw [h]
    rfl
  · intro h
    show toNumber (jsOr (jsPick r MainJS.popKeys) (JSVal.num 0)) = JSNum.val 0
    rw [h]
    rfl
  · intro h
    show toNumber (jsOr (jsPick r MainJS.densKeys) (JSVal.num 0)) = JSNum.val 0
    rw [h]
    rfl
  · intro h1 h2
    show JSNum.val (nanTo0 (toNumber
      (jsOr (StateTop.stPick r StateTop.casesKeys) (JSVal.num 0)))) = JSNum.val 0
    rw [h1]
    by_cases hs : s = ""
    · subst hs
      simp [jsOr, truthy, toNumber, nanTo0]
    · simp [jsOr, truthy, hs, toNumber, h2, nanTo0]
  · intro h1 h2 h3
    show toNumber (jsOr (jsPick r MainJS.casesKeys) (JSVal.num 0)) = JSNum.nan
    rw [h1]
    simp [jsOr, truthy, h2, toNumber, h3]

/-- C3 witness: the coercion law at the concrete record with cases "abc":
the state-page variant yields 0, the main-page variant yields NaN. -/
theorem numeric_coercion_behaviour_witness :
    (StateV2.normaliseRow exC3Row).cases = JSNum.val 0 ∧
    (MainJS.normalizeRow exC3Row).cases = JSNum.nan := by
  constructor
  · exact (numeric_coercion_behaviour exC3Row "abc").2.2.1
      (by simp [StateTop.stPick, StateTop.pickExact, StateTop.casesKeys, exC3Row, getField])
      (by simp [strToNum, digitsToNat])
  · exact (numeric_coercion_behaviour exC3Row "abc").2.2.2
      (by simp [jsPick, MainJS.casesKeys, exC3Row, getField])
      (by simp)
      (by simp [strToNum, digitsToNat])

/-- The two-state input of the C7 counterexample. -/
def exC7ByState : List (String × Summ2) := [("A", ⟨10, 0, 0, 0⟩), ("B", ⟨20, 0, 0, 0⟩)]

/-- C7 counterexample: with two states of 10 and 20 cases, the summary table's
"Median" row is the cases-descending list's element at index 1 (cases 10),
while the spec median of the cases values is 15 — the summary table does not
use the even/odd split. -/
theorem summary_median_even_counterexample :
    (MapJS.summaryMedianRow exC7ByState).cases = 10 ∧
    medianSpec [(10 : ℚ), 20] = 15 ∧ ((10 : ℚ) ≠ 15) := by
  refine ⟨?_, ?_, by norm_num⟩
  · norm_num [MapJS.summaryMedianRow, exC7ByState, toRowS, List.insertionSort,
      List.orderedInsert, descBy, List.getD]
  · norm_num [medianSpec, sortAscQ, List.insertionSort, List.orderedInsert, List.getD,
      Nat.odd_iff]

/-- C7 (amended): the box-plot fallback median equals the spec median (sort
ascending, standard even/odd split); the summary-table "Median" row instead
picks the single row at index ⌊n/2⌋ of the cases-descending sort, whose cases
value equals the spec median only for an odd number of states. -/
theorem median_fallback_and_summary_odd :
    (∀ vals : List ℚ, Part0.fallbackMedian vals = medianSpec vals) ∧
    (∀ byState : List (String × Summ2), byState ≠ [] → Odd byState.length →
      (MapJS.summaryMedianRow byState).cases =
        medianSpec ((byState.map toRowS).map (fun r => r.cases))) :=
  ⟨fallbackMedian_eq_medianSpec, summaryMedianRow_cases_odd⟩

/-- The three-state input of the C7 witness. -/
def exC7W : List (String × Summ2) :=
  [("A", ⟨10, 0, 0, 0⟩), ("B", ⟨20, 0, 0, 0⟩), ("C", ⟨30, 0, 0, 0⟩)]

/-- C7 witness: the odd-length agreement applied to a concrete three-state
input. -/
theorem median_fallback_and_summary_odd_witness :
    (MapJS.summaryMedianRow exC7W).cases =
      medianSpec ((exC7W.map toRowS).map (fun r => r.cases)) :=
  median_fallback_and_summary_odd.2 exC7W (by simp [exC7W])
    (by simp [exC7W, Nat.odd_iff])

/-- The four-state input of the C5 histogram scenario, with cases values
0, 50, 100 and 5000. -/
def exC5ByState : List (String × Summ2) :=
  [("s1", ⟨0, 0, 0, 0⟩), ("s2", ⟨50, 0, 0, 0⟩), ("s3", ⟨100, 0, 0, 0⟩),
   ("s4", ⟨5000, 0, 0, 0⟩)]

theorem log10floor_1250 : log10floor 1250 = 3 := by decide

theorem binScale_1250 : binScale 1250 = 1000 := by
  have hm : max (1 : ℚ) 1250 = 1250 := by norm_num [max_def]
  have htn : Int.toNat (Int.floor (max (1 : ℚ) 1250)) = 1250 := by
    rw [hm]
    rfl
  rw [binScale, htn]
  norm_num [log10floor_1250]

theorem roundBinWidth_1250 : roundBinWidth 1250 = 1000 := by
  rw [roundBinWidth, binScale_1250]
  norm_num [jsRound]

theorem exC5_bins : histBins 0 1000 =
    [⟨0, 999, 0, []⟩, ⟨1000, 1999, 0, []⟩, ⟨2000, 2999, 0, []⟩, ⟨3000, 3999, 0, []⟩] := by
  norm_num [histBins, List.range_succ]

theorem exC5_eval : buildHistogram exC5ByState "absolute" =
    some [⟨0, 999, 3, ["s1", "s2", "s3"]⟩, ⟨1000, 1999, 0, []⟩, ⟨2000, 2999, 0, []⟩,
      ⟨3000, 3999, 1, ["s4"]⟩] := by
  have hmn : foldMin 0 [50, 100, 5000] = 0 := by norm_num [foldMin, min_def]
  have hmx : foldMax 0 [50, 100, 5000] = 5000 := by norm_num [foldMax, max_def]
  have hw0 : histWidth0 0 5000 = 1250 := by norm_num [histWidth0]
  have harr : exC5ByState.map (fun p => histVal "absolute" p.2) = [0, 50, 100, 5000] := by
    norm_num [exC5ByState, histVal]
    decide
  rw [buildHistogram, harr]
  show some (List.foldl (fun bs p => placeVal bs p.1 (histVal "absolute" p.2))
      (histBins (foldMin 0 [50, 100, 5000])
        (roundBinWidth (histWidth0 (foldMin 0 [50, 100, 5000]) (foldMax 0 [50, 100, 5000]))))
      exC5ByState) = _
  rw [hmn, hmx, hw0, roundBinWidth_1250, exC5_bins]
  have hs : ("absolute" : String) ≠ "per100k" := by decide
  norm_num [exC5ByState, histVal, placeVal, hs]

/-- C5: for the inputs [0, 50, 100, 5000] the raw bin width 1250 rounds to
1000, the four bins are [0–999], [1000–1999], [2000–2999], [3000–3999], the
value 5000 is clamped into the last bin rather than dropped, and the counts
sum to the number of inputs. -/
theorem histogram_clamp_scenario :
    ((5000 - 0 : ℚ) / 4 = 1250) ∧
    roundBinWidth 1250 = 1000 ∧
    buildHistogram exC5ByState "absolute" =
      some [⟨0, 999, 3, ["s1", "s2", "s3"]⟩, ⟨1000, 1999, 0, []⟩, ⟨2000, 2999, 0, []⟩,
        ⟨3000, 3999, 1, ["s4"]⟩] ∧
    (((buildHistogram exC5ByState "absolute").getD []).map (fun b => b.count)).sum =
      exC5ByState.length := by
  refine ⟨by norm_num, roundBinWidth_1250, exC5_eval, ?_⟩
  rw [exC5_eval]
  simp [exC5ByState]

end DCV
